import Mathlib

/-!
Verification development for the `mcp-protocol-client` crate.

The crate root (`src/lib.rs`) declares four public modules (`builder`,
`client`, `error`, `transport`) and re-exports their main items; the bodies
of those modules are not part of the checked sources, so the session engine,
correlation table, error taxonomy and dispatch loop below are modelled from
the specification's component contracts (spec §§3-7) and the claims are
settled against that model.  The crate-root surface itself is embedded
directly from `src/lib.rs`.
-/

namespace MCPClient

/-- Modelled from the spec: the outcome a pending-response slot is fulfilled
with — a successful payload, a peer-reported request error, local
cancellation, or the connection-level error used when draining
(spec §3 "Pending Request", §4.2, §7).  Payloads are abstracted to `Nat`. -/
inductive Outcome where
  | success (payload : Nat)
  | requestError (code : Int) (message : String)
  | cancelled
  | connectionClosed (reason : String)
deriving DecidableEq, Repr

/-- Modelled from the spec: the correlation table (spec §4.2) — a mapping
from Request ID to a pending-response slot.  `pending` holds the registered,
not-yet-fulfilled IDs; `fulfilled` is the log of one-shot slots that have
been fulfilled, with the outcome each received. -/
structure Table where
  pending : List Nat
  fulfilled : List (Nat × Outcome)
deriving DecidableEq, Repr

/-- Modelled from the spec: `register(id) -> PendingHandle` fails with
`DuplicateIdError` if `id` is already registered (spec §4.2); `none` stands
for that failure. -/
def Table.register (t : Table) (id : Nat) : Option Table :=
  if id ∈ t.pending then none
  else some { t with pending := id :: t.pending }

/-- Modelled from the spec: `resolve(id, outcome)` fulfills the pending slot
for `id`; it fails silently (logs, does not propagate) when `id` is unknown
(spec §4.2). -/
def Table.resolve (t : Table) (id : Nat) (o : Outcome) : Table :=
  if id ∈ t.pending then
    { pending := t.pending.erase id, fulfilled := (id, o) :: t.fulfilled }
  else t

/-- Modelled from the spec: `cancel(id)` removes the entry and fulfills its
slot with a `Cancelled` outcome; idempotent (spec §4.2). -/
def Table.cancel (t : Table) (id : Nat) : Table :=
  if id ∈ t.pending then
    { pending := t.pending.erase id, fulfilled := (id, Outcome.cancelled) :: t.fulfilled }
  else t

/-- Modelled from the spec: `drain_all(reason)` fulfills every still-pending
slot with a connection-level error (spec §4.2). -/
def Table.drain_all (t : Table) (reason : String) : Table :=
  { pending := [],
    fulfilled := t.pending.map (fun id => (id, Outcome.connectionClosed reason)) ++ t.fulfilled }

/-- Well-formedness of a table: no duplicate pending IDs, no slot fulfilled
twice, and no ID both pending and already fulfilled. -/
def Table.WF (t : Table) : Prop :=
  t.pending.Nodup ∧ (t.fulfilled.map Prod.fst).Nodup ∧
    ∀ id ∈ t.pending, id ∉ t.fulfilled.map Prod.fst

instance (t : Table) : Decidable t.WF := by
  unfold Table.WF; infer_instance

/-- Number of times the slot for `id` has been fulfilled. -/
def Table.fulfillCount (t : Table) (id : Nat) : Nat :=
  (t.fulfilled.map Prod.fst).count id

/-- An interleaving step on the correlation table: one `resolve`, `cancel`
or `drain_all` operation (spec §4.2, §5). -/
inductive TableOp where
  | resolve (id : Nat) (o : Outcome)
  | cancel (id : Nat)
  | drain_all (reason : String)
deriving DecidableEq, Repr

def Table.applyOp (t : Table) : TableOp → Table
  | TableOp.resolve id o => t.resolve id o
  | TableOp.cancel id => t.cancel id
  | TableOp.drain_all r => t.drain_all r

/-- Run an interleaved sequence of operations against the table. -/
def Table.run (t : Table) (ops : List TableOp) : Table :=
  ops.foldl Table.applyOp t

/-- `opFulfills op id o`: the single operation `op` is one that fulfills the
slot for `id` with outcome `o`. -/
def opFulfills : TableOp → Nat → Outcome → Prop
  | TableOp.resolve i o2, id, o => i = id ∧ o2 = o
  | TableOp.cancel i, id, o => i = id ∧ o = Outcome.cancelled
  | TableOp.drain_all r, _, o => o = Outcome.connectionClosed r

/-- The multiset of IDs the table knows about (pending or fulfilled). -/
def Table.ids (t : Table) : List Nat :=
  t.pending ++ t.fulfilled.map Prod.fst

lemma fulfillOne_WF (t : Table) (id : Nat) (o : Outcome) (ht : t.WF) (hid : id ∈ t.pending) :
    Table.WF { pending := t.pending.erase id, fulfilled := (id, o) :: t.fulfilled } := by
  obtain ⟨h1, h2, h3⟩ := ht
  refine ⟨h1.erase id, ?_, ?_⟩
  · simp only [List.map_cons, List.nodup_cons]
    exact ⟨h3 id hid, h2⟩
  · intro j hj
    rw [h1.mem_erase_iff] at hj
    simp only [List.map_cons, List.mem_cons, not_or]
    exact ⟨hj.1, h3 j hj.2⟩

lemma resolve_WF (t : Table) (id : Nat) (o : Outcome) (ht : t.WF) :
    (t.resolve id o).WF := by
  unfold Table.resolve
  split
  · exact fulfillOne_WF t id o ht (by assumption)
  · exact ht

lemma cancel_WF (t : Table) (id : Nat) (ht : t.WF) : (t.cancel id).WF := by
  unfold Table.cancel
  split
  · exact fulfillOne_WF t id Outcome.cancelled ht (by assumption)
  · exact ht

lemma drain_all_WF (t : Table) (r : String) (ht : t.WF) : (t.drain_all r).WF := by
  obtain ⟨h1, h2, h3⟩ := ht
  refine ⟨List.nodup_nil, ?_, by simp [Table.drain_all]⟩
  simp only [Table.drain_all, List.map_append, List.map_map]
  have hfst : List.map (Prod.fst ∘ fun id => (id, Outcome.connectionClosed r)) t.pending
      = t.pending := by
    induction t.pending with
    | nil => rfl
    | cons a l ih => simp [ih]
  rw [hfst]
  exact List.Nodup.append h1 h2 (fun a ha hb => h3 a ha hb)

lemma applyOp_WF (t : Table) (op : TableOp) (ht : t.WF) : (t.applyOp op).WF := by
  cases op with
  | resolve id o => exact resolve_WF t id o ht
  | cancel id => exact cancel_WF t id ht
  | drain_all r => exact drain_all_WF t r ht

lemma run_WF (t : Table) (ops : List TableOp) (ht : t.WF) : (t.run ops).WF := by
  induction ops generalizing t with
  | nil => exact ht
  | cons op rest ih =>
    simp only [Table.run, List.foldl_cons]
    exact ih (t.applyOp op) (applyOp_WF t op ht)

lemma map_fst_drain (l : List Nat) (r : String) :
    List.map Prod.fst (l.map (fun id => (id, Outcome.connectionClosed r))) = l := by
  induction l with
  | nil => rfl
  | cons a l ih => simp [ih]

lemma erase_cons_ids_perm (pend : List Nat) (f : List Nat) (id : Nat) (hmem : id ∈ pend) :
    (pend.erase id ++ id :: f).Perm (pend ++ f) := by
  have h1 : (pend.erase id ++ id :: f).Perm (id :: (pend.erase id ++ f)) := List.perm_middle
  have h2 : (pend ++ f).Perm ((id :: pend.erase id) ++ f) :=
    (List.perm_cons_erase hmem).append_right f
  exact h1.trans h2.symm

lemma applyOp_ids_perm (t : Table) (op : TableOp) : (t.applyOp op).ids.Perm t.ids := by
  cases op with
  | resolve id o =>
    simp only [Table.applyOp, Table.resolve]
    split
    · rename_i hmem
      simp only [Table.ids, List.map_cons]
      exact erase_cons_ids_perm t.pending (t.fulfilled.map Prod.fst) id hmem
    · exact List.Perm.refl _
  | cancel id =>
    simp only [Table.applyOp, Table.cancel]
    split
    · rename_i hmem
      simp only [Table.ids, List.map_cons]
      exact erase_cons_ids_perm t.pending (t.fulfilled.map Prod.fst) id hmem
    · exact List.Perm.refl _
  | drain_all r =>
    simp only [Table.applyOp, Table.drain_all, Table.ids, List.nil_append, List.map_append,
      map_fst_drain]
    exact List.Perm.refl _

lemma run_ids_perm (t : Table) (ops : List TableOp) : (t.run ops).ids.Perm t.ids := by
  induction ops generalizing t with
  | nil => exact List.Perm.refl _
  | cons op rest ih =>
    simp only [Table.run, List.foldl_cons]
    exact (ih (t.applyOp op)).trans (applyOp_ids_perm t op)

lemma applyOp_fulfilled_suffix (t : Table) (op : TableOp) :
    t.fulfilled.IsSuffix (t.applyOp op).fulfilled := by
  cases op with
  | resolve id o =>
    simp only [Table.applyOp, Table.resolve]
    split
    · exact ⟨[(id, o)], rfl⟩
    · exact List.suffix_refl _
  | cancel id =>
    simp only [Table.applyOp, Table.cancel]
    split
    · exact ⟨[(id, Outcome.cancelled)], rfl⟩
    · exact List.suffix_refl _
  | drain_all r =>
    exact ⟨t.pending.map (fun id => (id, Outcome.connectionClosed r)), rfl⟩

lemma run_fulfilled_suffix (t : Table) (ops : List TableOp) :
    t.fulfilled.IsSuffix (t.run ops).fulfilled := by
  induction ops generalizing t with
  | nil => exact List.suffix_refl _
  | cons op rest ih =>
    simp only [Table.run, List.foldl_cons]
    exact (applyOp_fulfilled_suffix t op).trans (ih (t.applyOp op))

lemma applyOp_fulfilled_mem (t : Table) (op : TableOp) (id : Nat) (o : Outcome)
    (h : (id, o) ∈ (t.applyOp op).fulfilled) :
    (id, o) ∈ t.fulfilled ∨ opFulfills op id o := by
  cases op with
  | resolve i o2 =>
    simp only [Table.applyOp, Table.resolve] at h
    split at h
    · rcases List.mem_cons.mp h with h1 | h1
      · right
        obtain ⟨e1, e2⟩ := Prod.mk.injEq .. ▸ h1
        exact ⟨e1.symm, e2.symm⟩
      · exact Or.inl h1
    · exact Or.inl h
  | cancel i =>
    simp only [Table.applyOp, Table.cancel] at h
    split at h
    · rcases List.mem_cons.mp h with h1 | h1
      · right
        obtain ⟨e1, e2⟩ := Prod.mk.injEq .. ▸ h1
        exact ⟨e1.symm, e2⟩
      · exact Or.inl h1
    · exact Or.inl h
  | drain_all r =>
    simp only [Table.applyOp, Table.drain_all, List.mem_append] at h
    rcases h with h1 | h1
    · obtain ⟨a, _, ha2⟩ := List.mem_map.mp h1
      obtain ⟨e1, e2⟩ := Prod.mk.injEq .. ▸ ha2
      exact Or.inr e2.symm
    · exact Or.inl h1

lemma run_fulfilled_mem (t : Table) (ops : List TableOp) (id : Nat) (o : Outcome)
    (h : (id, o) ∈ (t.run ops).fulfilled) :
    (id, o) ∈ t.fulfilled ∨ ∃ op ∈ ops, opFulfills op id o := by
  induction ops generalizing t with
  | nil => exact Or.inl h
  | cons op rest ih =>
    simp only [Table.run, List.foldl_cons] at h
    rcases ih (t.applyOp op) h with h1 | h1
    · rcases applyOp_fulfilled_mem t op id o h1 with h2 | h2
      · exact Or.inl h2
      · exact Or.inr ⟨op, List.mem_cons_self op rest, h2⟩
    · obtain ⟨op2, hop2, hful⟩ := h1
      exact Or.inr ⟨op2, List.mem_cons_of_mem op hop2, hful⟩

lemma WF_fulfillCount_le_one (t : Table) (id : Nat) (ht : t.WF) :
    t.fulfillCount id ≤ 1 :=
  List.nodup_iff_count_le_one.mp ht.2.1 id

lemma drain_fulfillCount_eq_one (t : Table) (ops : List TableOp) (id : Nat) (r : String)
    (ht : t.WF) (hid : id ∈ t.ids) :
    (t.run (ops ++ [TableOp.drain_all r])).fulfillCount id = 1 := by
  have hrun : t.run (ops ++ [TableOp.drain_all r]) = (t.run ops).drain_all r := by
    simp [Table.run, List.foldl_append, Table.applyOp]
  have hwf : ((t.run ops).drain_all r).WF := drain_all_WF _ r (run_WF t ops ht)
  have hperm : ((t.run (ops ++ [TableOp.drain_all r]))).ids.Perm t.ids :=
    run_ids_perm t (ops ++ [TableOp.drain_all r])
  have hmem : id ∈ (t.run (ops ++ [TableOp.drain_all r])).ids := hperm.mem_iff.mpr hid
  rw [hrun] at hmem ⊢
  have hpend : ((t.run ops).drain_all r).pending = [] := rfl
  have hmem2 : id ∈ (((t.run ops).drain_all r).fulfilled.map Prod.fst) := by
    simpa [Table.ids, hpend] using hmem
  exact List.count_eq_one_of_mem hwf.2.1 hmem2

/-- Modelled from the spec: the session lifecycle states
`Uninitialized → Initializing → Ready → ShuttingDown → Closed` (spec §3). -/
inductive SessionState where
  | uninitialized
  | initializing
  | ready
  | shuttingDown
  | closed
deriving DecidableEq, Repr

/-- Modelled from the spec: the error taxonomy of §7 — transport errors,
protocol violations/corruption, negotiation errors, request errors,
cancellation/timeout, and local state errors. -/
inductive ClientError where
  | notReady
  | connectTwice
  | duplicateId
  | incompatibleVersion
  | missingCapability (name : String)
  | protocolCorruption
  | connectionClosed (reason : String)
  | transportFailure
  | requestFailure (code : Int) (message : String)
  | cancelled
  | timeout
deriving DecidableEq, Repr

/-- A `StateError` is a local-misuse failure (spec §7). -/
def ClientError.isStateError : ClientError → Bool
  | ClientError.notReady => true
  | ClientError.connectTwice => true
  | _ => false

/-- A `NegotiationError` is a handshake incompatibility (spec §7). -/
def ClientError.isNegotiationError : ClientError → Bool
  | ClientError.incompatibleVersion => true
  | ClientError.missingCapability _ => true
  | _ => false

/-- Transport-related failures (spec §7: `TransportError` and the
connection-level outcome produced by draining). -/
def ClientError.isTransportRelated : ClientError → Bool
  | ClientError.transportFailure => true
  | ClientError.connectionClosed _ => true
  | _ => false

/-- Modelled from the spec: outbound messages written to the transport
(spec §4.3, §6): request envelopes, notifications, and the error reply sent
for an unhandled server-initiated request. -/
inductive OutMsg where
  | requestMsg (id : Nat) (method : String)
  | notificationMsg (method : String)
  | errorReply (id : Nat)
deriving DecidableEq, Repr

/-- Modelled from the spec: the inbound message after deserialization — the
tagged union of §3 plus the malformed (undeserializable) case of §4.3. -/
inductive InMsg where
  | response (id : Nat) (o : Outcome)
  | serverRequest (id : Nat) (method : String)
  | notificationIn (method : String)
  | malformed
deriving DecidableEq, Repr

/-- Modelled from the spec: one item of the transport's inbound sequence —
a framed message or a transport error; the end of the event list is the
transport's end-of-sequence (spec §4.1). -/
inductive InEvent where
  | msg (m : InMsg)
  | transportDown
deriving DecidableEq, Repr

def handshakeMethod : String := "initialize"

def initializedMethod : String := "notifications/initialized"

def connClosedReason : String := "connection closed"

/-- Modelled from the spec: the session engine's state (spec §3, §4.3): the
lifecycle state, the correlation table, the monotone Request-ID counter, the
consecutive-malformed-message counter, the log of messages handed to the
transport, the client's declared version/capabilities, the negotiated
results, the fatal error (if any) and whether the transport was closed. -/
structure Session where
  state : SessionState
  table : Table
  nextId : Nat
  malformedStreak : Nat
  sent : List OutMsg
  clientVersion : String
  clientCaps : List String
  negotiatedVersion : Option String
  negotiatedCaps : Option (List String)
  fatalError : Option ClientError
  transportClosed : Bool
deriving DecidableEq, Repr

/-- Monotone ID issuance (spec §3): every pending ID was issued below the
counter, so the next ID is fresh. -/
def Session.IdFresh (s : Session) : Prop :=
  ∀ id ∈ s.table.pending, id < s.nextId

/-- Modelled from the spec: `close()` — transitions to `ShuttingDown`,
drains all pending requests with a `ConnectionClosed` outcome, closes the
transport, transitions to `Closed`; idempotent (spec §4.3). -/
def Session.close (s : Session) : Session × Except ClientError Unit :=
  if s.state = SessionState.closed then (s, Except.ok ())
  else
    let s1 := { s with state := SessionState.shuttingDown }
    let s2 := { s1 with table := s1.table.drain_all connClosedReason }
    ({ s2 with state := SessionState.closed, transportClosed := true }, Except.ok ())

/-- Modelled from the spec: the forced close used when protocol corruption
escalates (spec §4.3), recording the fatal error. -/
def Session.forceClose (s : Session) (e : ClientError) : Session :=
  { (s.close).1 with fatalError := some e }

/-- Modelled from the spec: `connect(transport)` (spec §4.3) — fails fast if
not `Uninitialized`; sends the handshake request; on the server's response,
requires an exact protocol-version match (else `IncompatibleVersionError`,
session never reaches `Ready`), checks server-required capabilities, takes
the capability intersection, sends the handshake-complete notification and
transitions to `Ready`.  The server's handshake response is passed in as
`serverVersion`/`serverCaps`/`serverRequired`. -/
def Session.connect (s : Session) (serverVersion : String)
    (serverCaps serverRequired : List String) : Session × Except ClientError Unit :=
  if s.state ≠ SessionState.uninitialized then (s, Except.error ClientError.connectTwice)
  else
    let s1 := { s with state := SessionState.initializing,
                       sent := s.sent ++ [OutMsg.requestMsg s.nextId handshakeMethod],
                       nextId := s.nextId + 1 }
    if s.clientVersion ≠ serverVersion then
      ({ s1 with state := SessionState.uninitialized },
        Except.error ClientError.incompatibleVersion)
    else
      match serverRequired.find? (fun c => ! s.clientCaps.contains c) with
      | some c =>
        ({ s1 with state := SessionState.uninitialized },
          Except.error (ClientError.missingCapability c))
      | none =>
        ({ s1 with state := SessionState.ready,
                   negotiatedVersion := some serverVersion,
                   negotiatedCaps := some (s.clientCaps.filter (fun c => serverCaps.contains c)),
                   sent := s1.sent ++ [OutMsg.notificationMsg initializedMethod] },
          Except.ok ())

/-- Modelled from the spec: `request(method, params)` (spec §4.3) — valid
only in `Ready` (fails with `NotReadyError` otherwise); allocates a fresh
Request ID, registers it in the correlation table, sends the envelope, and
returns the ID whose slot the caller then awaits. -/
def Session.request (s : Session) (method : String) : Session × Except ClientError Nat :=
  if s.state ≠ SessionState.ready then (s, Except.error ClientError.notReady)
  else
    match s.table.register s.nextId with
    | none => (s, Except.error ClientError.duplicateId)
    | some t =>
      ({ s with table := t, nextId := s.nextId + 1,
                sent := s.sent ++ [OutMsg.requestMsg s.nextId method] },
        Except.ok s.nextId)

/-- Modelled from the spec: `notify(method, params)` — fire-and-forget
send, no pending slot registered (spec §4.3). -/
def Session.notify (s : Session) (method : String) : Session × Except ClientError Unit :=
  if s.state ≠ SessionState.ready then (s, Except.error ClientError.notReady)
  else ({ s with sent := s.sent ++ [OutMsg.notificationMsg method] }, Except.ok ())

def malformedLimit : Nat := 3

/-- Modelled from the spec: the dispatch loop's handling of one inbound
message (spec §4.3): responses are routed through `resolve` (unknown IDs
fail silently there); server-initiated requests get a method-not-found
error reply; notifications are routed (absence of a handler is not an
error); a malformed message is logged and skipped, and three consecutive
malformed messages escalate to fatal `ProtocolCorruptionError` forcing
`close()`.  Any well-formed message resets the consecutive-malformed
counter. -/
def Session.handleMsg (s : Session) (m : InMsg) : Session :=
  match m with
  | InMsg.response id o => { s with table := s.table.resolve id o, malformedStreak := 0 }
  | InMsg.serverRequest id _ =>
      { s with sent := s.sent ++ [OutMsg.errorReply id], malformedStreak := 0 }
  | InMsg.notificationIn _ => { s with malformedStreak := 0 }
  | InMsg.malformed =>
      if s.malformedStreak + 1 ≥ malformedLimit then
        s.forceClose ClientError.protocolCorruption
      else { s with malformedStreak := s.malformedStreak + 1 }

/-- Iterated message handling: the dispatch loop body over a run of
messages while the transport stays up. -/
def Session.handleMsgs (s : Session) (ms : List InMsg) : Session :=
  ms.foldl Session.handleMsg s

/-- Modelled from the spec: the terminal action of the dispatch loop — on
transport end-of-sequence or transport error it calls `drain_all` and
transitions the session to `Closed`, regardless of current state
(spec §4.3). -/
def Session.onTransportDown (s : Session) : Session :=
  { s with table := s.table.drain_all connClosedReason,
           state := SessionState.closed, transportClosed := true }

/-- Modelled from the spec: the dispatch loop (spec §4.3): consumes the
inbound sequence until it ends, a transport error occurs, or the session is
forced closed. -/
def Session.dispatchLoop : Session → List InEvent → Session
  | s, [] => s.onTransportDown
  | s, InEvent.transportDown :: _ => s.onTransportDown
  | s, InEvent.msg m :: rest =>
    let s1 := s.handleMsg m
    if s1.state = SessionState.closed then s1 else s1.dispatchLoop rest

/-! Embedding of the crate root `src/lib.rs`: the item declarations of the
crate's public surface. -/

inductive Visibility where
  | pub
  | priv
deriving DecidableEq, Repr

/-- A `mod` declaration of the crate root. -/
structure ModDecl where
  name : String
  vis : Visibility
deriving DecidableEq, Repr

/-- A `use` declaration of the crate root: the path it imports from, the
named items (empty for a glob), whether it is a glob (`::*`), and its
visibility. -/
structure UseDecl where
  path : String
  items : List String
  glob : Bool
  vis : Visibility
deriving DecidableEq, Repr

structure CrateRoot where
  mods : List ModDecl
  uses : List UseDecl
deriving DecidableEq, Repr

/-- Embedded from `src/lib.rs` lines 12-21, in source order: the four
`pub mod` declarations and the four `pub use` re-export declarations. -/
def libRs : CrateRoot :=
  { mods := [⟨"builder", Visibility.pub⟩, ⟨"client", Visibility.pub⟩,
             ⟨"error", Visibility.pub⟩, ⟨"transport", Visibility.pub⟩],
    uses := [⟨"builder", ["ClientBuilder"], false, Visibility.pub⟩,
             ⟨"client", ["Client"], false, Visibility.pub⟩,
             ⟨"error", ["ClientError", "ClientResult"], false, Visibility.pub⟩,
             ⟨"mcp_protocol_types", [], true, Visibility.pub⟩] }

/-- The names of the crate root's public modules. -/
def publicModNames (c : CrateRoot) : List String :=
  (c.mods.filter (fun m => m.vis == Visibility.pub)).map (fun m => m.name)

/-- The items re-exported by name from the crate root. -/
def namedReexports (c : CrateRoot) : List String :=
  ((c.uses.filter (fun u => u.vis == Visibility.pub && !u.glob)).map (fun u => u.items)).flatten

/-- The paths glob-re-exported from the crate root. -/
def globReexports (c : CrateRoot) : List String :=
  (c.uses.filter (fun u => u.vis == Visibility.pub && u.glob)).map (fun u => u.path)

/-! Concrete sessions and inputs used by the witnesses. -/

def sampleTable : Table := { pending := [7, 8], fulfilled := [] }

def sampleVersion : String := "2.0"

def sampleReady : Session :=
  { state := SessionState.ready, table := sampleTable, nextId := 9, malformedStreak := 0,
    sent := [], clientVersion := sampleVersion, clientCaps := [],
    negotiatedVersion := some sampleVersion, negotiatedCaps := some [],
    fatalError := none, transportClosed := false }

def sampleUninit : Session :=
  { state := SessionState.uninitialized, table := { pending := [], fulfilled := [] },
    nextId := 1, malformedStreak := 0, sent := [], clientVersion := sampleVersion,
    clientCaps := [], negotiatedVersion := none, negotiatedCaps := none,
    fatalError := none, transportClosed := false }

def serverVersionSample : String := "1.0"

def sampleMethod : String := "tools/call"

/-! The claims. -/

/-- C10: the crate's public root interface is exactly the four public
modules `builder`, `client`, `error`, `transport`, the root-level named
re-exports `ClientBuilder`, `Client`, `ClientError`, `ClientResult`, and a
glob re-export of all items of `mcp_protocol_types` (src/lib.rs 12-21). -/
theorem spec_C10 :
    publicModNames libRs = ["builder", "client", "error", "transport"] ∧
    namedReexports libRs = ["ClientBuilder", "Client", "ClientError", "ClientResult"] ∧
    globReexports libRs = ["mcp_protocol_types"] :=
  ⟨rfl, rfl, rfl⟩

/-- C3: on transport end-of-sequence or transport error, in any session
state, the dispatch loop drains all pending slots and transitions the
session to `Closed`; every request pending at that moment is fulfilled with
a `ConnectionClosed` outcome, so no caller remains suspended. -/
theorem spec_C3 (s : Session) (evs : List InEvent)
    (h : evs = [] ∨ ∃ rest, evs = InEvent.transportDown :: rest) :
    (s.dispatchLoop evs).state = SessionState.closed ∧
    (s.dispatchLoop evs).table.pending = [] ∧
    ∀ id ∈ s.table.pending,
      (id, Outcome.connectionClosed connClosedReason) ∈ (s.dispatchLoop evs).table.fulfilled := by
  have hd : s.dispatchLoop evs = s.onTransportDown := by
    rcases h with h | ⟨rest, h⟩ <;> subst h <;> rfl
  rw [hd]
  refine ⟨rfl, rfl, ?_⟩
  intro id hid
  exact List.mem_append_left _ (List.mem_map.mpr ⟨id, hid, rfl⟩)

/-- Witness for C3: a `Ready` session with two pending requests, inbound
sequence already ended. -/
theorem spec_C3_witness :
    (sampleReady.dispatchLoop []).state = SessionState.closed ∧
    (sampleReady.dispatchLoop []).table.pending = [] ∧
    (7, Outcome.connectionClosed connClosedReason)
      ∈ (sampleReady.dispatchLoop []).table.fulfilled :=
  ⟨(spec_C3 sampleReady [] (Or.inl rfl)).1,
   (spec_C3 sampleReady [] (Or.inl rfl)).2.1,
   (spec_C3 sampleReady [] (Or.inl rfl)).2.2 7 (by decide)⟩

/-- C7: in every session state other than `Ready`, `request` fails with
`NotReadyError` — a local `StateError`, never transport-related — without
allocating a Request ID, registering anything in the correlation table, or
sending anything on the transport. -/
theorem spec_C7 (s : Session) (method : String) (h : s.state ≠ SessionState.ready) :
    s.request method = (s, Except.error ClientError.notReady) ∧
    ClientError.notReady.isStateError = true ∧
    ClientError.notReady.isTransportRelated = false ∧
    (s.request method).1.nextId = s.nextId ∧
    (s.request method).1.table = s.table ∧
    (s.request method).1.sent = s.sent := by
  have h1 : s.request method = (s, Except.error ClientError.notReady) := by
    unfold Session.request
    simp [h]
  exact ⟨h1, rfl, rfl, by rw [h1], by rw [h1], by rw [h1]⟩

/-- Witness for C7: an `Uninitialized` session. -/
theorem spec_C7_witness :
    sampleUninit.request sampleMethod = (sampleUninit, Except.error ClientError.notReady) ∧
    ClientError.notReady.isStateError = true ∧
    ClientError.notReady.isTransportRelated = false ∧
    (sampleUninit.request sampleMethod).1.nextId = sampleUninit.nextId ∧
    (sampleUninit.request sampleMethod).1.table = sampleUninit.table ∧
    (sampleUninit.request sampleMethod).1.sent = sampleUninit.sent :=
  spec_C7 sampleUninit sampleMethod (by decide)

/-- C4: `close()` ends with the session `Closed` and the transport closed,
fulfills every still-pending request with a `ConnectionClosed` outcome (and
nothing else: the fulfilled log grows by exactly the drained entries), and
is idempotent — a second call returns `ok` and changes nothing, so no
already-resolved slot is re-drained. -/
theorem spec_C4 (s : Session) (h : s.state ≠ SessionState.closed) :
    (s.close).2 = Except.ok () ∧
    (s.close).1.state = SessionState.closed ∧
    (s.close).1.transportClosed = true ∧
    (s.close).1.table.pending = [] ∧
    (∀ id ∈ s.table.pending,
      (id, Outcome.connectionClosed connClosedReason) ∈ (s.close).1.table.fulfilled) ∧
    (s.close).1.table.fulfilled =
      s.table.pending.map (fun id => (id, Outcome.connectionClosed connClosedReason))
        ++ s.table.fulfilled ∧
    (s.close).1.close = ((s.close).1, Except.ok ()) := by
  have h1 : s.close =
      ({ s with state := SessionState.closed,
                table := s.table.drain_all connClosedReason,
                transportClosed := true }, Except.ok ()) := by
    unfold Session.close
    simp [h]
  rw [h1]
  refine ⟨rfl, rfl, rfl, rfl, ?_, rfl, ?_⟩
  · intro id hid
    exact List.mem_append_left _ (List.mem_map.mpr ⟨id, hid, rfl⟩)
  · unfold Session.close
    simp

/-- Witness for C4: closing a `Ready` session with two pending requests. -/
theorem spec_C4_witness :
    (sampleReady.close).2 = Except.ok () ∧
    (sampleReady.close).1.state = SessionState.closed ∧
    (sampleReady.close).1.transportClosed = true ∧
    (sampleReady.close).1.table.pending = [] ∧
    (8, Outcome.connectionClosed connClosedReason) ∈ (sampleReady.close).1.table.fulfilled ∧
    (sampleReady.close).1.close = ((sampleReady.close).1, Except.ok ()) :=
  ⟨(spec_C4 sampleReady (by decide)).1,
   (spec_C4 sampleReady (by decide)).2.1,
   (spec_C4 sampleReady (by decide)).2.2.1,
   (spec_C4 sampleReady (by decide)).2.2.2.1,
   (spec_C4 sampleReady (by decide)).2.2.2.2.1 8 (by decide),
   (spec_C4 sampleReady (by decide)).2.2.2.2.2.2⟩

instance (s : Session) : Decidable s.IdFresh := by
  unfold Session.IdFresh; infer_instance

/-- C6: if the server's handshake response declares a protocol version that
is not an exact match of the client's, `connect` fails with
`IncompatibleVersionError` (a `NegotiationError`) and the session stays
`Uninitialized`, never reaching `Ready`. -/
theorem spec_C6 (s : Session) (sv : String) (sc sr : List String)
    (hst : s.state = SessionState.uninitialized) (hv : s.clientVersion ≠ sv) :
    (s.connect sv sc sr).2 = Except.error ClientError.incompatibleVersion ∧
    ClientError.incompatibleVersion.isNegotiationError = true ∧
    (s.connect sv sc sr).1.state = SessionState.uninitialized ∧
    (s.connect sv sc sr).1.state ≠ SessionState.ready := by
  have h1 : s.connect sv sc sr =
      ({ s with state := SessionState.uninitialized,
                sent := s.sent ++ [OutMsg.requestMsg s.nextId handshakeMethod],
                nextId := s.nextId + 1 },
        Except.error ClientError.incompatibleVersion) := by
    unfold Session.connect
    rw [hst]
    simp [hv]
  rw [h1]
  exact ⟨rfl, rfl, rfl, by simp⟩

/-- Witness for C6: client version "2.0", server answers "1.0". -/
theorem spec_C6_witness :
    (sampleUninit.connect serverVersionSample [] []).2
      = Except.error ClientError.incompatibleVersion ∧
    ClientError.incompatibleVersion.isNegotiationError = true ∧
    (sampleUninit.connect serverVersionSample [] []).1.state = SessionState.uninitialized ∧
    (sampleUninit.connect serverVersionSample [] []).1.state ≠ SessionState.ready :=
  spec_C6 sampleUninit serverVersionSample [] [] (by decide) (by decide)

/-- C8: a response envelope whose ID is not registered is dropped silently —
the session stays alive and `Ready`, the table is unchanged, no error is
recorded — and a subsequent `request` on the same session still succeeds. -/
theorem spec_C8 (s : Session) (id : Nat) (o : Outcome) (method : String)
    (hready : s.state = SessionState.ready) (hid : id ∉ s.table.pending)
    (hfresh : s.IdFresh) :
    (s.handleMsg (InMsg.response id o)).state = SessionState.ready ∧
    (s.handleMsg (InMsg.response id o)).table = s.table ∧
    (s.handleMsg (InMsg.response id o)).fatalError = s.fatalError ∧
    ((s.handleMsg (InMsg.response id o)).request method).2 = Except.ok s.nextId ∧
    ((s.handleMsg (InMsg.response id o)).request method).1.table.pending
      = s.nextId :: s.table.pending := by
  have hres : s.table.resolve id o = s.table := by
    unfold Table.resolve
    simp [hid]
  have h1 : s.handleMsg (InMsg.response id o) = { s with malformedStreak := 0 } := by
    show { s with table := s.table.resolve id o, malformedStreak := 0 }
        = { s with malformedStreak := 0 }
    rw [hres]
  have hnid : s.nextId ∉ s.table.pending := fun hmem => Nat.lt_irrefl _ (hfresh _ hmem)
  have hreg : s.table.register s.nextId
      = some { s.table with pending := s.nextId :: s.table.pending } := by
    unfold Table.register
    simp [hnid]
  rw [h1]
  have h2 : ({ s with malformedStreak := 0 } : Session).request method
      = ({ s with malformedStreak := 0,
                  table := { s.table with pending := s.nextId :: s.table.pending },
                  nextId := s.nextId + 1,
                  sent := s.sent ++ [OutMsg.requestMsg s.nextId method] },
          Except.ok s.nextId) := by
    unfold Session.request
    simp [hready, hreg]
  rw [h2]
  exact ⟨hready, rfl, rfl, rfl, rfl⟩

/-- Witness for C8: a `Ready` session with pending IDs 7 and 8 receives a
response for the never-registered ID 3. -/
theorem spec_C8_witness :
    (sampleReady.handleMsg (InMsg.response 3 (Outcome.success 0))).state
      = SessionState.ready ∧
    (sampleReady.handleMsg (InMsg.response 3 (Outcome.success 0))).table
      = sampleReady.table ∧
    (sampleReady.handleMsg (InMsg.response 3 (Outcome.success 0))).fatalError
      = sampleReady.fatalError ∧
    ((sampleReady.handleMsg (InMsg.response 3 (Outcome.success 0))).request
        sampleMethod).2 = Except.ok sampleReady.nextId ∧
    ((sampleReady.handleMsg (InMsg.response 3 (Outcome.success 0))).request
        sampleMethod).1.table.pending = sampleReady.nextId :: sampleReady.table.pending :=
  spec_C8 sampleReady 3 (Outcome.success 0) sampleMethod (by decide) (by decide) (by decide)

/-- C5: each malformed inbound message is skipped (table unchanged, session
still `Ready`); three consecutive malformed messages escalate to the fatal
`ProtocolCorruptionError` and force the session `Closed` (and the dispatch
loop stops there); two consecutive malformed messages followed by a valid
one reset the escalation, leaving the session `Ready` with its table
untouched. -/
theorem spec_C5 (s : Session) (rest : List InEvent) (method : String)
    (hready : s.state = SessionState.ready) (hstreak : s.malformedStreak = 0) :
    (s.handleMsgs [InMsg.malformed]).table = s.table ∧
    (s.handleMsgs [InMsg.malformed]).state = SessionState.ready ∧
    (s.handleMsgs [InMsg.malformed, InMsg.malformed, InMsg.malformed]).state
      = SessionState.closed ∧
    (s.handleMsgs [InMsg.malformed, InMsg.malformed, InMsg.malformed]).fatalError
      = some ClientError.protocolCorruption ∧
    s.dispatchLoop (InEvent.msg InMsg.malformed :: InEvent.msg InMsg.malformed
        :: InEvent.msg InMsg.malformed :: rest)
      = s.handleMsgs [InMsg.malformed, InMsg.malformed, InMsg.malformed] ∧
    (s.handleMsgs [InMsg.malformed, InMsg.malformed, InMsg.notificationIn method]).state
      = SessionState.ready ∧
    (s.handleMsgs
        [InMsg.malformed, InMsg.malformed, InMsg.notificationIn method]).malformedStreak
      = 0 ∧
    (s.handleMsgs [InMsg.malformed, InMsg.malformed, InMsg.notificationIn method]).table
      = s.table := by
  have h1 : s.handleMsg InMsg.malformed = { s with malformedStreak := 1 } := by
    unfold Session.handleMsg
    rw [hstreak]
    simp [malformedLimit]
  have h2 : ({ s with malformedStreak := 1 } : Session).handleMsg InMsg.malformed
      = { s with malformedStreak := 2 } := by
    unfold Session.handleMsg
    simp [malformedLimit]
  have h3 : ({ s with malformedStreak := 2 } : Session).handleMsg InMsg.malformed
      = { s with state := SessionState.closed,
                 table := s.table.drain_all connClosedReason,
                 malformedStreak := 2, transportClosed := true,
                 fatalError := some ClientError.protocolCorruption } := by
    unfold Session.handleMsg
    simp only [malformedLimit]
    rw [if_pos (by norm_num)]
    unfold Session.forceClose Session.close
    rw [if_neg (by simp [hready])]
  have hm3 : s.handleMsgs [InMsg.malformed, InMsg.malformed, InMsg.malformed]
      = { s with state := SessionState.closed,
                 table := s.table.drain_all connClosedReason,
                 malformedStreak := 2, transportClosed := true,
                 fatalError := some ClientError.protocolCorruption } := by
    unfold Session.handleMsgs
    simp only [List.foldl_cons, List.foldl_nil, h1, h2, h3]
  have hv3 : s.handleMsgs [InMsg.malformed, InMsg.malformed, InMsg.notificationIn method]
      = { s with malformedStreak := 0 } := by
    unfold Session.handleMsgs
    simp only [List.foldl_cons, List.foldl_nil, h1, h2]
    unfold Session.handleMsg
    rfl
  have hd : s.dispatchLoop (InEvent.msg InMsg.malformed :: InEvent.msg InMsg.malformed
        :: InEvent.msg InMsg.malformed :: rest)
      = { s with state := SessionState.closed,
                 table := s.table.drain_all connClosedReason,
                 malformedStreak := 2, transportClosed := true,
                 fatalError := some ClientError.protocolCorruption } := by
    unfold Session.dispatchLoop
    simp only [h1]
    rw [if_neg (by simp [hready])]
    unfold Session.dispatchLoop
    simp only [h2]
    rw [if_neg (by simp [hready])]
    unfold Session.dispatchLoop
    simp only [h3]
    simp
  refine ⟨?_, ?_, ?_, ?_, ?_, ?_, ?_, ?_⟩
  · simp only [Session.handleMsgs, List.foldl_cons, List.foldl_nil, h1]
  · simp only [Session.handleMsgs, List.foldl_cons, List.foldl_nil, h1]
    exact hready
  · rw [hm3]
  · rw [hm3]
  · rw [hd, hm3]
  · rw [hv3]
    exact hready
  · rw [hv3]
  · rw [hv3]

/-- Witness for C5: the `Ready` sample session, empty continuation. -/
theorem spec_C5_witness :
    (sampleReady.handleMsgs [InMsg.malformed]).table = sampleReady.table ∧
    (sampleReady.handleMsgs [InMsg.malformed]).state = SessionState.ready ∧
    (sampleReady.handleMsgs [InMsg.malformed, InMsg.malformed, InMsg.malformed]).state
      = SessionState.closed ∧
    (sampleReady.handleMsgs [InMsg.malformed, InMsg.malformed, InMsg.malformed]).fatalError
      = some ClientError.protocolCorruption ∧
    sampleReady.dispatchLoop (InEvent.msg InMsg.malformed :: InEvent.msg InMsg.malformed
        :: InEvent.msg InMsg.malformed :: [])
      = sampleReady.handleMsgs [InMsg.malformed, InMsg.malformed, InMsg.malformed] ∧
    (sampleReady.handleMsgs
        [InMsg.malformed, InMsg.malformed, InMsg.notificationIn sampleMethod]).state
      = SessionState.ready ∧
    (sampleReady.handleMsgs
        [InMsg.malformed, InMsg.malformed, InMsg.notificationIn sampleMethod]).malformedStreak
      = 0 ∧
    (sampleReady.handleMsgs
        [InMsg.malformed, InMsg.malformed, InMsg.notificationIn sampleMethod]).table
      = sampleReady.table :=
  spec_C5 sampleReady [] sampleMethod (by decide) (by decide)

/-- C9: `cancel(id)` removes the entry for `id` and fulfills its slot with
a `Cancelled` outcome, and is idempotent: a second `cancel(id)`, or a
`cancel` on an ID with no entry, changes nothing and is not an error. -/
theorem spec_C9 (t : Table) (id : Nat) (hn : t.pending.Nodup) :
    (id ∈ t.pending →
      (t.cancel id).pending = t.pending.erase id ∧
      id ∉ (t.cancel id).pending ∧
      (t.cancel id).fulfilled = (id, Outcome.cancelled) :: t.fulfilled) ∧
    (t.cancel id).cancel id = t.cancel id ∧
    (id ∉ t.pending → t.cancel id = t) := by
  have hskip : ∀ t2 : Table, id ∉ t2.pending → t2.cancel id = t2 := by
    intro t2 h2
    unfold Table.cancel
    simp [h2]
  have hmemcase : ∀ _ : id ∈ t.pending, t.cancel id =
      { pending := t.pending.erase id,
        fulfilled := (id, Outcome.cancelled) :: t.fulfilled } := by
    intro h
    unfold Table.cancel
    simp [h]
  refine ⟨?_, ?_, hskip t⟩
  · intro h
    rw [hmemcase h]
    refine ⟨rfl, ?_, rfl⟩
    intro hc
    exact ((hn.mem_erase_iff).mp hc).1 rfl
  · by_cases h : id ∈ t.pending
    · refine hskip _ ?_
      rw [hmemcase h]
      intro hc
      exact ((hn.mem_erase_iff).mp hc).1 rfl
    · rw [hskip t h]
      exact hskip t h

/-- Witness for C9 on a table with pending IDs 7 and 8, cancelling 7. -/
theorem spec_C9_witness :
    ((7 : Nat) ∈ sampleTable.pending →
      (sampleTable.cancel 7).pending = sampleTable.pending.erase 7 ∧
      (7 : Nat) ∉ (sampleTable.cancel 7).pending ∧
      (sampleTable.cancel 7).fulfilled = (7, Outcome.cancelled) :: sampleTable.fulfilled) ∧
    (sampleTable.cancel 7).cancel 7 = sampleTable.cancel 7 ∧
    ((7 : Nat) ∉ sampleTable.pending → sampleTable.cancel 7 = sampleTable) :=
  spec_C9 sampleTable 7 (by decide)

/-- C2: across any interleaving of `resolve`, `cancel` and `drain_all`
operations on a well-formed table, well-formedness is preserved, every ID
is fulfilled at most once, a fulfilled slot stays fulfilled with its
outcome, and every registered ID is fulfilled exactly once by the time a
`drain_all` has run. -/
theorem spec_C2 (t : Table) (ops : List TableOp) (id : Nat) (r : String) (ht : t.WF) :
    (t.run ops).WF ∧
    (t.run ops).fulfillCount id ≤ 1 ∧
    (∀ o, (id, o) ∈ t.fulfilled → (id, o) ∈ (t.run ops).fulfilled) ∧
    (id ∈ t.ids → (t.run (ops ++ [TableOp.drain_all r])).fulfillCount id = 1) := by
  refine ⟨run_WF t ops ht, WF_fulfillCount_le_one _ id (run_WF t ops ht), ?_, ?_⟩
  · intro o hmem
    exact (run_fulfilled_suffix t ops).subset hmem
  · intro hid
    exact drain_fulfillCount_eq_one t ops id r ht hid

def sampleTable2 : Table := { pending := [7, 8], fulfilled := [(5, Outcome.success 55)] }

def sampleOps : List TableOp := [TableOp.resolve 7 (Outcome.success 17), TableOp.cancel 8]

/-- Witness for C2: a table with pending 7, 8 and slot 5 already fulfilled,
run through a resolve of 7, a cancel of 8 and a final drain. -/
theorem spec_C2_witness :
    (sampleTable2.run sampleOps).WF ∧
    (sampleTable2.run sampleOps).fulfillCount 5 ≤ 1 ∧
    (5, Outcome.success 55) ∈ (sampleTable2.run sampleOps).fulfilled ∧
    (sampleTable2.run (sampleOps ++ [TableOp.drain_all connClosedReason])).fulfillCount 5
      = 1 :=
  ⟨(spec_C2 sampleTable2 sampleOps 5 connClosedReason (by decide)).1,
   (spec_C2 sampleTable2 sampleOps 5 connClosedReason (by decide)).2.1,
   (spec_C2 sampleTable2 sampleOps 5 connClosedReason (by decide)).2.2.1
     (Outcome.success 55) (by decide),
   (spec_C2 sampleTable2 sampleOps 5 connClosedReason (by decide)).2.2.2 (by decide)⟩

/-- C1: under any interleaving of table operations, each caller's slot is
fulfilled at most once, and only by an operation correlated to the caller's
own Request ID — with echo payloads, a successful outcome for an ID carries
that ID's own payload, never another's; and when a cancellation races the
response's arrival, both orders leave the slot fulfilled exactly once, with
either the real result or `Cancelled` — never both, never neither. -/
theorem spec_C1 (t : Table) (ops : List TableOp) (echo : Nat → Nat) (id : Nat) (o : Outcome)
    (ht : t.WF) (hf0 : t.fulfilled = [])
    (hops : ∀ i o2, TableOp.resolve i o2 ∈ ops → o2 = Outcome.success (echo i)) :
    (t.run ops).fulfillCount id ≤ 1 ∧
    (∀ o2, (id, o2) ∈ (t.run ops).fulfilled → ∃ op ∈ ops, opFulfills op id o2) ∧
    (∀ p, (id, Outcome.success p) ∈ (t.run ops).fulfilled → p = echo id) ∧
    (id ∈ t.pending →
      (t.run [TableOp.cancel id, TableOp.resolve id o]).fulfillCount id = 1 ∧
      (id, Outcome.cancelled)
        ∈ (t.run [TableOp.cancel id, TableOp.resolve id o]).fulfilled ∧
      (t.run [TableOp.resolve id o, TableOp.cancel id]).fulfillCount id = 1 ∧
      (id, o) ∈ (t.run [TableOp.resolve id o, TableOp.cancel id]).fulfilled) := by
  have hprov : ∀ o2, (id, o2) ∈ (t.run ops).fulfilled → ∃ op ∈ ops, opFulfills op id o2 := by
    intro o2 h
    rcases run_fulfilled_mem t ops id o2 h with h1 | h1
    · rw [hf0] at h1
      cases h1
    · exact h1
  refine ⟨WF_fulfillCount_le_one _ id (run_WF t ops ht), hprov, ?_, ?_⟩
  · intro p h
    obtain ⟨op, hop, hful⟩ := hprov (Outcome.success p) h
    cases op with
    | resolve i o2 =>
      obtain ⟨hi, ho⟩ := hful
      have he := hops i o2 hop
      rw [he] at ho
      have hp : echo i = p := Outcome.success.inj ho
      rw [← hi, ← hp]
    | cancel i =>
      exact absurd hful.2 (by intro hc; cases hc)
    | drain_all r =>
      exact absurd hful (by intro hc; cases hc)
  · intro hid
    have hcount0 : (t.fulfilled.map Prod.fst).count id = 0 :=
      List.count_eq_zero.mpr (ht.2.2 id hid)
    have hnid : id ∉ t.pending.erase id := by
      intro hc
      exact ((ht.1.mem_erase_iff).mp hc).1 rfl
    have hc1 : t.cancel id =
        { pending := t.pending.erase id,
          fulfilled := (id, Outcome.cancelled) :: t.fulfilled } := by
      unfold Table.cancel
      simp [hid]
    have hr1 : t.resolve id o =
        { pending := t.pending.erase id, fulfilled := (id, o) :: t.fulfilled } := by
      unfold Table.resolve
      simp [hid]
    have e1 : t.run [TableOp.cancel id, TableOp.resolve id o]
        = { pending := t.pending.erase id,
            fulfilled := (id, Outcome.cancelled) :: t.fulfilled } := by
      show ((t.cancel id).resolve id o) = _
      rw [hc1]
      unfold Table.resolve
      simp [hnid]
    have e2 : t.run [TableOp.resolve id o, TableOp.cancel id]
        = { pending := t.pending.erase id, fulfilled := (id, o) :: t.fulfilled } := by
      show ((t.resolve id o).cancel id) = _
      rw [hr1]
      unfold Table.cancel
      simp [hnid]
    refine ⟨?_, ?_, ?_, ?_⟩
    · rw [e1]
      simp [Table.fulfillCount, hcount0]
    · rw [e1]
      exact List.mem_cons_self _ _
    · rw [e2]
      simp [Table.fulfillCount, hcount0]
    · rw [e2]
      exact List.mem_cons_self _ _

def echoFn : Nat → Nat := fun id => id + 100

def sampleOpsC1 : List TableOp :=
  [TableOp.resolve 7 (Outcome.success 107), TableOp.resolve 8 (Outcome.success 108)]

lemma sampleOpsC1_echo :
    ∀ i o2, TableOp.resolve i o2 ∈ sampleOpsC1 → o2 = Outcome.success (echoFn i) := by
  intro i o2 h
  rcases List.mem_cons.mp h with h1 | h1
  · injection h1 with hi ho
    subst hi
    rw [ho]
    rfl
  · rcases List.mem_cons.mp h1 with h2 | h2
    · injection h2 with hi ho
      subst hi
      rw [ho]
      rfl
    · exact absurd h2 (List.not_mem_nil _)

/-- Witness for C1: two concurrent echo requests 7 and 8, plus the
cancellation race on ID 7 in both orders. -/
theorem spec_C1_witness :
    (sampleTable.run sampleOpsC1).fulfillCount 7 ≤ 1 ∧
    (107 = echoFn 7) ∧
    ((sampleTable.run [TableOp.cancel 7,
        TableOp.resolve 7 (Outcome.success 107)]).fulfillCount 7 = 1 ∧
      (7, Outcome.cancelled) ∈ (sampleTable.run [TableOp.cancel 7,
        TableOp.resolve 7 (Outcome.success 107)]).fulfilled ∧
      (sampleTable.run [TableOp.resolve 7 (Outcome.success 107),
        TableOp.cancel 7]).fulfillCount 7 = 1 ∧
      (7, Outcome.success 107) ∈ (sampleTable.run [TableOp.resolve 7 (Outcome.success 107),
        TableOp.cancel 7]).fulfilled) :=
  ⟨(spec_C1 sampleTable sampleOpsC1 echoFn 7 (Outcome.success 107)
      (by decide) rfl sampleOpsC1_echo).1,
   (spec_C1 sampleTable sampleOpsC1 echoFn 7 (Outcome.success 107)
      (by decide) rfl sampleOpsC1_echo).2.2.1 107 (by decide),
   (spec_C1 sampleTable sampleOpsC1 echoFn 7 (Outcome.success 107)
      (by decide) rfl sampleOpsC1_echo).2.2.2 (by decide)⟩

end MCPClient
